import Mathlib

/-!
Shallow embedding of the Vela onboarding-approval core:
the approve/deny button handlers (`src/bot/views/onboarding.py`,
class `OnboardingApprovalView` and the dynamic onboarding modal)
and the periodic reconciliation sweep (`src/bot/tasks/sync.py`,
class `SyncTask`), together with the slice of the data model
(`src/shared/models.py`) they read and write.

Member onboarding status is an integer as in the source:
0 = pending, 1 = approved, -1 = denied.
-/

namespace Vela

/-- JSON-like scalar stored in audit `details`, keeping Python's distinction
between `int` and `str` values (the audit `details` column is a JSON dict). -/
inductive JsonVal where
  | jnum (n : Nat)
  | jstr (s : String)
deriving DecidableEq, Repr

/-- Row of the `roles` table (`src/shared/models.py`), fields used by the core. -/
structure Role where
  role_id : Nat
  role_type : Option String
  guild_id : Nat
deriving DecidableEq, Repr

/-- Row of the `members` table, fields used by the approval core. -/
structure Member where
  user_id : Nat
  guild_id : Nat
  username : String
  nickname : Option String
  onboarding_status : Int
  onboarding_completed_at : Option Nat
deriving DecidableEq, Repr

/-- Row of the `audit_logs` table, fields used by the approval core. -/
structure AuditLog where
  guild_id : Nat
  user_id : Nat
  discord_username : Option String
  action : String
  details : List (String × JsonVal)
deriving DecidableEq, Repr

/-- The guild `settings` keys the click handlers read, after applying the
Python-side defaults (`settings.get("set_nickname", True)`,
`settings.get("auto_role", True)`). -/
structure GuildSettings where
  set_nickname : Bool
  auto_role : Bool
deriving DecidableEq, Repr

/-- The database state visible to the approval core. -/
structure DB where
  members : List Member
  roles : List Role
  audit : List AuditLog
  guilds : List (Nat × GuildSettings)
deriving DecidableEq, Repr

/-- Embed colors used by the onboarding embeds. -/
inductive DColor where
  | orange
  | green
  | red
deriving DecidableEq, Repr

/-- A field of a Discord embed; `inl` models the `inline` flag. -/
structure EmbedField where
  name : String
  value : String
  inl : Bool
deriving DecidableEq, Repr

/-- A Discord embed, restricted to the parts the approval core reads/writes. -/
structure Embed where
  title : Option String
  description : Option String
  color : DColor
  fields : List EmbedField
  footer : Option String
  thumbnail : Option String
deriving DecidableEq, Repr

/-- A Discord message in the approval channel. -/
structure Message where
  id : Nat
  author_id : Nat
  embeds : List Embed
deriving DecidableEq, Repr

/-! ### Python-style string and truthiness helpers -/

/-- Python `needle in hay` substring test, on character lists. -/
def hasSubList (nd : List Char) : List Char → Bool
  | [] => nd.isEmpty
  | c :: cs => nd.isPrefixOf (c :: cs) || hasSubList nd cs

/-- Python `needle in hay` on strings. -/
def pyIn (needle hay : String) : Bool :=
  hasSubList needle.data hay.data

/-- Python truthiness of an optional integer id (`None` and `0` are falsy). -/
def truthyN : Option Nat → Bool
  | none => false
  | some n => n != 0

/-- Python truthiness of an optional string (`None` and `""` are falsy). -/
def pyTruthyStr : Option String → Bool
  | none => false
  | some s => s != ""

/-- Python `s or d` for an optional string. -/
def pyOrStr : Option String → String → String
  | none, d => d
  | some s, d => if s == "" then d else s

/-! ### Member-id extraction

`SyncTask._extract_user_id_from_embed` reads the structured "User ID" field
first (skipping unparseable ones) and falls back to the first `<@digits>`
mention in the embed description. -/

/-- Split a character list into its leading run of ASCII digits and the rest. -/
def digitsSpan : List Char → List Char × List Char
  | [] => ([], [])
  | c :: cs =>
    if c.isDigit then
      let p := digitsSpan cs
      (c :: p.1, p.2)
    else ([], c :: cs)

/-- Numeric value of a digit run. -/
def digitsToNat (ds : List Char) : Nat :=
  ds.foldl (fun a c => a * 10 + (c.toNat - 48)) 0

/-- Python `int(s)` on the decimal strings this code produces (`str(user.id)`
and rendered ids): succeeds exactly on nonempty all-digit strings, raising
(`none`) otherwise. -/
def parseNat (s : String) : Option Nat :=
  if !s.data.isEmpty && s.data.all (·.isDigit) then some (digitsToNat s.data)
  else none

/-- Python `s[:n]` (truncation by code points). -/
def strTake (s : String) (n : Nat) : String :=
  ⟨s.data.take n⟩

/-- Strip `pat` from the front of `s`, returning the rest when it is a prefix. -/
def stripPre (pat s : List Char) : Option (List Char) :=
  match pat, s with
  | [], rest => some rest
  | _ :: _, [] => none
  | p :: ps, c :: cs => if p == c then stripPre ps cs else none

/-- Fuel-driven worker for `replaceAll`; the fuel starts at the subject's
length, which bounds the number of steps. -/
def replaceAllAux (pat r : List Char) : Nat → List Char → List Char
  | 0, s => s
  | _ + 1, [] => []
  | fuel + 1, c :: cs =>
    match if pat.isEmpty then none else stripPre pat (c :: cs) with
    | some rest => r ++ replaceAllAux pat r fuel rest
    | none => c :: replaceAllAux pat r fuel cs

/-- Python `s.replace(pat, r)`: replace all non-overlapping occurrences left
to right (for the nonempty patterns the nickname template produces). -/
def replaceAll (s pat r : String) : String :=
  ⟨replaceAllAux pat.data r.data s.data.length s.data⟩

/-- Try to match the pattern `<@digits>` at the start of the list. -/
def mentionAt : List Char → Option Nat
  | '<' :: '@' :: rest =>
    match digitsSpan rest with
    | ([], _) => none
    | (ds, '>' :: _) => some (digitsToNat ds)
    | (_, _) => none
  | _ => none

/-- Model of `re.search(r"<@(\d+)>", s)`: first match anywhere in the string. -/
def searchMention : List Char → Option Nat
  | [] => none
  | c :: cs =>
    match mentionAt (c :: cs) with
    | some n => some n
    | none => searchMention cs

/-- `SyncTask._extract_user_id_from_embed`: structured "User ID" field first
(continuing past unparseable values), then the mention-pattern fallback over
the description. -/
def extractUserIdFromEmbed (e : Embed) : Option Nat :=
  match e.fields.findSome? (fun f => if f.name == "User ID" then parseNat f.value else none) with
  | some n => some n
  | none =>
    match e.description with
    | some d => if d != "" then searchMention d.data else none
    | none => none

/-! ### Nickname generation (`DynamicOnboardingModal.on_submit`) -/

/-- Python `field_values.get(k, "")` over the (ordered) submitted fields. -/
def lookupStr (l : List (String × String)) (k : String) : String :=
  (l.lookup k).getD ""

/-- Nickname computation from `DynamicOnboardingModal.on_submit`: with a
(truthy) template, substitute each `{field_name}` and truncate to 32
characters; otherwise join first/last name when both are truthy, else fall
back to the first submitted field value truncated to 32 characters, else the
Discord username. -/
def generateNickname (template : Option String) (fieldValues : List (String × String))
    (userName : String) : String :=
  if pyTruthyStr template then
    strTake (fieldValues.foldl
      (fun acc p => replaceAll acc ("\x7b" ++ p.1 ++ "\x7d") p.2) (template.getD "")) 32
  else
    let firstName := lookupStr fieldValues "first_name"
    let lastName := lookupStr fieldValues "last_name"
    if firstName != "" && lastName != "" then
      strTake (firstName ++ " " ++ lastName) 32
    else
      match fieldValues with
      | [] => userName
      | (_, v) :: _ => strTake v 32

/-! ### Interactive-control actuator (`OnboardingApprovalView`)

`approve_button` and `deny_button` share the same id-resolution and
permission-check code; the decision body then writes the member status
unconditionally, appends one audit entry, applies identity side effects
(best effort), and rewrites the request embed with the buttons disabled. -/

/-- The actor clicking a button (`interaction.user`). -/
structure Actor where
  id : Nat
  name : String
  roleIds : List Nat
deriving DecidableEq, Repr

/-- Discord mention string of an actor. -/
def Actor.mention (a : Actor) : String :=
  "<@" ++ toString a.id ++ ">"

/-- Ambient interaction data the click handlers read: the clicked message,
the interaction's guild, the guild's member/role caches (`guild.get_member`,
`guild.get_role`), the guild name (for DM texts) and the current time. -/
structure ClickCtx where
  actor : Actor
  message : Message
  interactionGuildId : Nat
  guildMemberIds : List Nat
  guildRoleIds : List Nat
  guildName : String
  now : Nat
deriving DecidableEq, Repr

/-- External identity side effects applied by the handlers. -/
inductive SideEffect where
  | rename (user_id : Nat) (nick : String)
  | grantRole (user_id : Nat) (role_id : Nat)
  | dm (user_id : Nat) (text : String)
deriving DecidableEq, Repr

/-- Outcome of a button click as surfaced to the clicking actor. -/
inductive ClickOutcome where
  /-- "Could not determine user information from this request." -/
  | couldNotDetermine
  /-- "You don't have permission to approve/deny onboarding requests." -/
  | permissionDenied
  /-- "Member not found in database." -/
  | memberNotFound
  /-- The decision path ran to completion and the message was edited. -/
  | decided
  /-- An exception inside the `try` block was caught and reported. -/
  | errorCaught
  /-- An uncaught exception escaped the handler (e.g. `int()` failing while
  parsing the "User ID" field, which sits outside the `try` block). -/
  | exception
deriving DecidableEq, Repr

/-- Result of a button click: outcome, database after the handler, identity
side effects attempted, and the in-place edit of the request message. -/
structure ClickResult where
  outcome : ClickOutcome
  db : DB
  sideEffects : List SideEffect
  editedMessage : Option Message
deriving DecidableEq, Repr

/-- The id-resolution block shared by `approve_button` and `deny_button`:
when either stored view id is falsy, re-read the user id from the first
embed's "User ID" field (an unparseable value raises, uncaught) and take the
guild id from the interaction. -/
def resolveClickIds (viewUser viewGuild : Option Nat) (msg : Message)
    (interactionGuildId : Nat) : Except Unit (Option Nat × Option Nat) :=
  if !truthyN viewUser || !truthyN viewGuild then
    match msg.embeds with
    | [] => .ok (viewUser, viewGuild)
    | e :: _ =>
      match e.fields.find? (fun f => f.name == "User ID") with
      | none => .ok (viewUser, some interactionGuildId)
      | some f =>
        match parseNat f.value with
        | none => .error ()
        | some n => .ok (some n, some interactionGuildId)
  else .ok (viewUser, viewGuild)

/-- `OnboardingApprovalView.check_approver_permission`: false when no
`onboarding_approver` role is configured for the guild, else true iff the
actor holds any configured approver role. -/
def checkApproverPermission (db : DB) (guild_id : Nat) (userRoleIds : List Nat) : Bool :=
  let approverRoles := db.roles.filter
    (fun r => r.guild_id == guild_id && r.role_type == some "onboarding_approver")
  if approverRoles.isEmpty then false
  else approverRoles.any (fun r => userRoleIds.contains r.role_id)

/-- Guild settings with the Python-side `.get(..., True)` defaults applied
(`guild.settings if guild and guild.settings else \x7b\x7d`). -/
def effectiveSettings (db : DB) (gid : Nat) : GuildSettings :=
  (db.guilds.lookup gid).getD ⟨true, true⟩

/-- Mutate the first member row matching (user_id, guild_id), like the
SQLModel `.first()` + attribute assignment + commit. -/
def updateFirstMember (ms : List Member) (uid gid : Nat) (f : Member → Member) :
    List Member :=
  match ms with
  | [] => []
  | m :: rest =>
    if m.user_id == uid && m.guild_id == gid then f m :: rest
    else m :: updateFirstMember rest uid gid f

/-- Current stored onboarding status of a member, read back from the store. -/
def memberStatus (db : DB) (uid gid : Nat) : Option Int :=
  (db.members.find? (fun m => m.user_id == uid && m.guild_id == gid)).map
    (·.onboarding_status)

/-- `OnboardingApprovalView.approve_button`: resolve ids, check permission,
then unconditionally set the member's status to approved (1), stamp
`onboarding_completed_at`, append an `onboarding_approved` audit entry
(the target id is stored as an `int` in `details`), apply the rename /
role-grant / DM side effects when the member is in the guild cache, and
rewrite the embed as approved with the buttons disabled. -/
def approveClick (viewUser viewGuild : Option Nat) (ctx : ClickCtx) (db : DB) :
    ClickResult :=
  match resolveClickIds viewUser viewGuild ctx.message ctx.interactionGuildId with
  | .error _ => ⟨.exception, db, [], none⟩
  | .ok (ru, rg) =>
    if !truthyN ru || !truthyN rg then ⟨.couldNotDetermine, db, [], none⟩
    else
      let uid := ru.getD 0
      let gid := rg.getD 0
      if !checkApproverPermission db gid ctx.actor.roleIds then
        ⟨.permissionDenied, db, [], none⟩
      else
        match db.members.find? (fun m => m.user_id == uid && m.guild_id == gid) with
        | none => ⟨.memberNotFound, db, [], none⟩
        | some mem =>
          let memberNickname := mem.nickname
          let settings := effectiveSettings db gid
          let onboardedRoleId := (db.roles.find?
            (fun r => r.guild_id == gid && r.role_type == some "onboarded")).map (·.role_id)
          let newMembers := updateFirstMember db.members uid gid
            (fun m => { m with onboarding_status := 1,
                               onboarding_completed_at := some ctx.now })
          let auditEntry : AuditLog :=
            { guild_id := gid, user_id := ctx.actor.id,
              discord_username := some ctx.actor.name,
              action := "onboarding_approved",
              details := [("approved_user_id", .jnum uid),
                          ("approved_by", .jstr ctx.actor.name)] }
          let db1 : DB := { db with members := newMembers,
                                    audit := db.audit ++ [auditEntry] }
          let effects : List SideEffect :=
            if ctx.guildMemberIds.contains uid then
              (if settings.set_nickname && pyTruthyStr memberNickname then
                [SideEffect.rename uid (memberNickname.getD "")] else [])
              ++ (match onboardedRoleId with
                  | some rid =>
                    if settings.auto_role && rid != 0 then
                      if ctx.guildRoleIds.contains rid then
                        [SideEffect.grantRole uid rid]
                      else []
                    else []
                  | none => [])
              ++ [SideEffect.dm uid
                    ("✅ Your onboarding request has been approved! Welcome to "
                      ++ ctx.guildName ++ "!")]
            else []
          match ctx.message.embeds with
          | [] => ⟨.errorCaught, db1, effects, none⟩
          | e :: _ =>
            let newEmbed : Embed :=
              { e with color := .green,
                       title := some "✅ Onboarding Request Approved",
                       fields := e.fields ++ [⟨"Approved By", ctx.actor.mention, false⟩] }
            ⟨.decided, db1, effects, some { ctx.message with embeds := [newEmbed] }⟩

/-- `OnboardingApprovalView.deny_button`: same resolution and permission
gate, then unconditionally set the member's status to denied (-1), append an
`onboarding_denied` audit entry (target id stored as an `int`), DM the member
when cached, and rewrite the embed as denied with the buttons disabled. -/
def denyClick (viewUser viewGuild : Option Nat) (ctx : ClickCtx) (db : DB) :
    ClickResult :=
  match resolveClickIds viewUser viewGuild ctx.message ctx.interactionGuildId with
  | .error _ => ⟨.exception, db, [], none⟩
  | .ok (ru, rg) =>
    if !truthyN ru || !truthyN rg then ⟨.couldNotDetermine, db, [], none⟩
    else
      let uid := ru.getD 0
      let gid := rg.getD 0
      if !checkApproverPermission db gid ctx.actor.roleIds then
        ⟨.permissionDenied, db, [], none⟩
      else
        match db.members.find? (fun m => m.user_id == uid && m.guild_id == gid) with
        | none => ⟨.memberNotFound, db, [], none⟩
        | some _ =>
          let newMembers := updateFirstMember db.members uid gid
            (fun m => { m with onboarding_status := -1 })
          let auditEntry : AuditLog :=
            { guild_id := gid, user_id := ctx.actor.id,
              discord_username := some ctx.actor.name,
              action := "onboarding_denied",
              details := [("denied_user_id", .jnum uid),
                          ("denied_by", .jstr ctx.actor.name)] }
          let db1 : DB := { db with members := newMembers,
                                    audit := db.audit ++ [auditEntry] }
          let effects : List SideEffect :=
            if ctx.guildMemberIds.contains uid then
              [SideEffect.dm uid
                ("❌ Your onboarding request for " ++ ctx.guildName
                  ++ " has been denied. Please contact a moderator for more information.")]
            else []
          match ctx.message.embeds with
          | [] => ⟨.errorCaught, db1, effects, none⟩
          | e :: _ =>
            let newEmbed : Embed :=
              { e with color := .red,
                       title := some "❌ Onboarding Request Denied",
                       fields := e.fields ++ [⟨"Denied By", ctx.actor.mention, false⟩] }
            ⟨.decided, db1, effects, some { ctx.message with embeds := [newEmbed] }⟩

/-! ### Reconciliation sweep (`SyncTask`, `src/bot/tasks/sync.py`) -/

/-- Staleness probe of `_update_approved_message`: does the rendered title
already show the approved state (`"✅" in title or "Approved" in title`)? -/
def showsApproved (title : Option String) : Bool :=
  pyIn "✅" (title.getD "") || pyIn "Approved" (title.getD "")

/-- Staleness probe of `_update_denied_message`
(`"❌" in title or "Denied" in title`). -/
def showsDenied (title : Option String) : Bool :=
  pyIn "❌" (title.getD "") || pyIn "Denied" (title.getD "")

/-- Attribution lookup of `_update_approved_message`: scan `onboarding_approved`
audit entries of the guild for one whose `approved_user_id` detail equals
`str(member.user_id)` (a string; the click handler stores an int), falling
back to "System (sync)". -/
def findApproverName (db : DB) (mem : Member) : String :=
  let logs := db.audit.filter
    (fun l => l.guild_id == mem.guild_id && l.action == "onboarding_approved")
  match logs.find? (fun l => !l.details.isEmpty &&
      l.details.lookup "approved_user_id" == some (.jstr (toString mem.user_id))) with
  | some l => pyOrStr l.discord_username "Unknown"
  | none => "System (sync)"

/-- Attribution lookup of `_update_denied_message`, over `onboarding_denied`
entries and the `denied_user_id` detail. -/
def findDenierName (db : DB) (mem : Member) : String :=
  let logs := db.audit.filter
    (fun l => l.guild_id == mem.guild_id && l.action == "onboarding_denied")
  match logs.find? (fun l => !l.details.isEmpty &&
      l.details.lookup "denied_user_id" == some (.jstr (toString mem.user_id))) with
  | some l => pyOrStr l.discord_username "Unknown"
  | none => "System (sync)"

/-- Result of syncing one message: database after, the (possibly edited)
message, and the deltas to the `messages_updated` / `errors` statistics. -/
structure MsgSyncResult where
  db : DB
  msg : Message
  updated : Nat
  errors : Nat
deriving DecidableEq, Repr

/-- `SyncTask._update_approved_message`, parameterized by which message edits
fail (`message.edit` raising): skip when the title already shows approved;
otherwise rebuild the embed (attributed via the audit lookup) and edit the
message; a failed edit counts one error and skips the `sync_approved` audit
entry, a successful one counts one update and appends it. -/
def updateApprovedMessage (editFails : Message → Bool) (db : DB) (m : Message)
    (e : Embed) (mem : Member) : MsgSyncResult :=
  if showsApproved e.title then ⟨db, m, 0, 0⟩
  else
    let approver := findApproverName db mem
    let newEmbed : Embed :=
      { title := some "✅ Onboarding Request Approved",
        description := e.description,
        color := .green,
        fields := (e.fields.filter (fun f => f.name != "Approved By"))
          ++ [⟨"Approved By", approver, false⟩],
        footer := e.footer,
        thumbnail := e.thumbnail }
    if editFails m then ⟨db, m, 0, 1⟩
    else
      let syncLog : AuditLog :=
        { guild_id := mem.guild_id, user_id := mem.user_id,
          discord_username := some (pyOrStr mem.nickname "Unknown"),
          action := "sync_approved",
          details := [("message_id", .jstr (toString m.id)),
                      ("original_approver", .jstr approver)] }
      ⟨{ db with audit := db.audit ++ [syncLog] },
        { m with embeds := [newEmbed] }, 1, 0⟩

/-- `SyncTask._update_denied_message`, the denied counterpart. -/
def updateDeniedMessage (editFails : Message → Bool) (db : DB) (m : Message)
    (e : Embed) (mem : Member) : MsgSyncResult :=
  if showsDenied e.title then ⟨db, m, 0, 0⟩
  else
    let denier := findDenierName db mem
    let newEmbed : Embed :=
      { title := some "❌ Onboarding Request Denied",
        description := e.description,
        color := .red,
        fields := (e.fields.filter (fun f => f.name != "Denied By"))
          ++ [⟨"Denied By", denier, false⟩],
        footer := e.footer,
        thumbnail := e.thumbnail }
    if editFails m then ⟨db, m, 0, 1⟩
    else
      let syncLog : AuditLog :=
        { guild_id := mem.guild_id, user_id := mem.user_id,
          discord_username := some (pyOrStr mem.nickname "Unknown"),
          action := "sync_denied",
          details := [("message_id", .jstr (toString m.id)),
                      ("original_denier", .jstr denier)] }
      ⟨{ db with audit := db.audit ++ [syncLog] },
        { m with embeds := [newEmbed] }, 1, 0⟩

/-- `SyncTask._sync_message`: extract the member id from the first embed (a
missing embed raises, caught as one error); no extractable id or no member
record leaves the message untouched; status 1 / -1 dispatch to the updaters;
status 0 (pending) leaves the message as is. -/
def syncMessage (editFails : Message → Bool) (db : DB) (gid : Nat) (m : Message) :
    MsgSyncResult :=
  match m.embeds with
  | [] => ⟨db, m, 0, 1⟩
  | e :: _ =>
    match extractUserIdFromEmbed e with
    | none => ⟨db, m, 0, 0⟩
    | some uid =>
      match db.members.find? (fun mm => mm.guild_id == gid && mm.user_id == uid) with
      | none => ⟨db, m, 0, 0⟩
      | some mem =>
        if mem.onboarding_status == 1 then updateApprovedMessage editFails db m e mem
        else if mem.onboarding_status == -1 then updateDeniedMessage editFails db m e mem
        else ⟨db, m, 0, 0⟩

/-- The message filter of `SyncTask.sync_guild`: authored by the bot, has an
embed, and the first embed's title contains "Onboarding Approval Request". -/
def isApprovalRequest (botId : Nat) (m : Message) : Bool :=
  m.author_id == botId &&
    match m.embeds with
    | [] => false
    | e :: _ => pyIn "Onboarding Approval Request" (e.title.getD "")

/-- The sweep statistics (`checked` / `updated` / `errors`) of one pass. -/
structure SweepStats where
  checked : Nat
  updated : Nat
  errors : Nat
deriving DecidableEq, Repr

/-- Result of one sweep pass over a guild's approval channel. -/
structure GuildSyncResult where
  db : DB
  msgs : List Message
  stats : SweepStats
deriving DecidableEq, Repr

/-- The per-message loop of `SyncTask.sync_guild`: messages passing the
approval-request filter are counted as checked and synced in order (threading
the database); others pass through untouched. -/
def syncGuild (editFails : Message → Bool) (botId gid : Nat) (db : DB) :
    List Message → GuildSyncResult
  | [] => ⟨db, [], ⟨0, 0, 0⟩⟩
  | m :: rest =>
    if isApprovalRequest botId m then
      let r := syncMessage editFails db gid m
      let t := syncGuild editFails botId gid r.db rest
      ⟨t.db, r.msg :: t.msgs,
        ⟨t.stats.checked + 1, t.stats.updated + r.updated, t.stats.errors + r.errors⟩⟩
    else
      let t := syncGuild editFails botId gid db rest
      ⟨t.db, m :: t.msgs, t.stats⟩

/-- `SyncTask.sync_guild` including the history fetch: a failed channel
history read (`discord.Forbidden` or any other exception) aborts the pass for
this guild with no message edits and no store change; a successful read runs
the per-message loop. -/
def syncGuildRun (fetch : Except Unit (List Message)) (editFails : Message → Bool)
    (botId gid : Nat) (db : DB) : GuildSyncResult :=
  match fetch with
  | .error _ => ⟨db, [], ⟨0, 0, 0⟩⟩
  | .ok msgs => syncGuild editFails botId gid db msgs

/-- The pure edit decision of `_sync_message`: would the sweep edit this
message, given the member table? (The edit decision reads only the member
status and the rendered title; the audit table only influences the
attribution text inside the rewritten embed.) -/
def wouldEdit (members : List Member) (gid : Nat) (m : Message) : Bool :=
  match m.embeds with
  | [] => false
  | e :: _ =>
    match extractUserIdFromEmbed e with
    | none => false
    | some uid =>
      match members.find? (fun mm => mm.guild_id == gid && mm.user_id == uid) with
      | none => false
      | some mem =>
        if mem.onboarding_status == 1 then !showsApproved e.title
        else if mem.onboarding_status == -1 then !showsDenied e.title
        else false

/-- Value of the "Approved By" field of a request message's first embed. -/
def approvedByValue (m : Message) : Option String :=
  match m.embeds with
  | [] => none
  | e :: _ => (e.fields.find? (fun f => f.name == "Approved By")).map (·.value)

/-- Proof vocabulary: the result `approve_button` produces once id resolution
and the permission check have succeeded and the member row was found.
`approveClick` provably equals this on that path (`approveClick_spec`). -/
def approveSuccess (ctx : ClickCtx) (db : DB) (u g : Nat) (mem : Member) : ClickResult :=
  let db1 : DB := { db with
    members := updateFirstMember db.members u g
      (fun m => { m with onboarding_status := 1,
                         onboarding_completed_at := some ctx.now }),
    audit := db.audit ++ [⟨g, ctx.actor.id, some ctx.actor.name, "onboarding_approved",
      [("approved_user_id", .jnum u), ("approved_by", .jstr ctx.actor.name)]⟩] }
  let effects : List SideEffect :=
    if ctx.guildMemberIds.contains u then
      (if (effectiveSettings db g).set_nickname && pyTruthyStr mem.nickname then
        [.rename u (mem.nickname.getD "")] else [])
      ++ (match (db.roles.find?
            (fun r => r.guild_id == g && r.role_type == some "onboarded")).map (·.role_id) with
          | some rid =>
            if (effectiveSettings db g).auto_role && rid != 0 then
              if ctx.guildRoleIds.contains rid then [.grantRole u rid] else []
            else []
          | none => [])
      ++ [.dm u ("✅ Your onboarding request has been approved! Welcome to "
            ++ ctx.guildName ++ "!")]
    else []
  match ctx.message.embeds with
  | [] => ⟨.errorCaught, db1, effects, none⟩
  | e :: _ =>
    let newEmbed : Embed :=
      { e with color := .green,
               title := some "✅ Onboarding Request Approved",
               fields := e.fields ++ [⟨"Approved By", ctx.actor.mention, false⟩] }
    ⟨.decided, db1, effects, some { ctx.message with embeds := [newEmbed] }⟩

/-- Proof vocabulary: the result `deny_button` produces once id resolution
and the permission check have succeeded and the member row was found. -/
def denySuccess (ctx : ClickCtx) (db : DB) (u g : Nat) : ClickResult :=
  let db1 : DB := { db with
    members := updateFirstMember db.members u g
      (fun m => { m with onboarding_status := -1 }),
    audit := db.audit ++ [⟨g, ctx.actor.id, some ctx.actor.name, "onboarding_denied",
      [("denied_user_id", .jnum u), ("denied_by", .jstr ctx.actor.name)]⟩] }
  let effects : List SideEffect :=
    if ctx.guildMemberIds.contains u then
      [.dm u ("❌ Your onboarding request for " ++ ctx.guildName
        ++ " has been denied. Please contact a moderator for more information.")]
    else []
  match ctx.message.embeds with
  | [] => ⟨.errorCaught, db1, effects, none⟩
  | e :: _ =>
    let newEmbed : Embed :=
      { e with color := .red,
               title := some "❌ Onboarding Request Denied",
               fields := e.fields ++ [⟨"Denied By", ctx.actor.mention, false⟩] }
    ⟨.decided, db1, effects, some { ctx.message with embeds := [newEmbed] }⟩

/-! ### Concrete fixtures for counterexamples and witnesses -/

/-- A freshly rendered (pending) approval-request embed, as built by
`DynamicOnboardingModal.on_submit` for user 42. -/
def sampleEmbed : Embed :=
  { title := some "📋 Onboarding Approval Request",
    description := some "**<@42>** (grace) has submitted an onboarding request.",
    color := .orange,
    fields := [⟨"Nickname", "Grace", true⟩, ⟨"User ID", "42", true⟩,
               ⟨"First Name", "Grace", true⟩],
    footer := some "Submitted by grace",
    thumbnail := some "avatar-url" }

/-- The same embed without the structured "User ID" field; the member id is
only recoverable from the mention in the description. -/
def mentionEmbed : Embed :=
  { sampleEmbed with fields := [⟨"Nickname", "Grace", true⟩] }

/-- The posted approval-request message (authored by bot id 9). -/
def msgA : Message := ⟨555, 9, [sampleEmbed]⟩

/-- The approval-request message that lacks the structured "User ID" field. -/
def msgMentionOnly : Message := ⟨556, 9, [mentionEmbed]⟩

/-- Database with member 42 of guild 7 pending, one configured approver role
(100) and one onboarded role (200). -/
def pendingDB : DB :=
  ⟨[⟨42, 7, "grace", some "Grace", 0, none⟩],
   [⟨100, some "onboarding_approver", 7⟩, ⟨200, some "onboarded", 7⟩],
   [], [(7, ⟨true, true⟩)]⟩

/-- Same database but member 42 is already approved. -/
def approvedDB : DB :=
  ⟨[⟨42, 7, "grace", some "Grace", 1, some 5⟩],
   [⟨100, some "onboarding_approver", 7⟩, ⟨200, some "onboarded", 7⟩],
   [], [(7, ⟨true, true⟩)]⟩

/-- Database like `pendingDB` but with no `onboarding_approver` role
configured at all for guild 7. -/
def noApproverDB : DB :=
  ⟨[⟨42, 7, "grace", some "Grace", 0, none⟩],
   [⟨200, some "onboarded", 7⟩],
   [], [(7, ⟨true, true⟩)]⟩

/-- Approver "alice" (holds approver role 100). -/
def actorAlice : Actor := ⟨1001, "alice", [100]⟩

/-- A second, distinct approver "bob". -/
def actorBob : Actor := ⟨1002, "bob", [100]⟩

/-- Non-approver "eve" (holds only unrelated role 999). -/
def actorEve : Actor := ⟨1003, "eve", [999]⟩

/-- Click context for alice on the request message in guild 7 (member 42 and
role 200 present in the guild caches). -/
def ctxAlice : ClickCtx := ⟨actorAlice, msgA, 7, [42], [200], "TestGuild", 10⟩

/-- Click context for bob on the same message. -/
def ctxBob : ClickCtx := ⟨actorBob, msgA, 7, [42], [200], "TestGuild", 11⟩

/-- Click context for eve on the same message. -/
def ctxEve : ClickCtx := ⟨actorEve, msgA, 7, [42], [200], "TestGuild", 12⟩

/-- Click context for alice on the message lacking the "User ID" field. -/
def ctxAliceMention : ClickCtx :=
  ⟨actorAlice, msgMentionOnly, 7, [42], [200], "TestGuild", 13⟩

/-! ### Helper lemmas -/

theorem truthyN_of_ne (n : Nat) (h : n ≠ 0) : truthyN (some n) = true := by
  simp [truthyN, h]

theorem checkApproverPermission_eq_false_of_not_held (db : DB) (g : Nat)
    (rids : List Nat)
    (h : ∀ r ∈ db.roles, r.guild_id = g →
      r.role_type = some "onboarding_approver" → r.role_id ∉ rids) :
    checkApproverPermission db g rids = false := by
  unfold checkApproverPermission
  by_cases he : (db.roles.filter
      (fun r => r.guild_id == g && r.role_type == some "onboarding_approver")).isEmpty
  · simp [he]
  · rw [if_neg he, List.any_eq_false]
    intro r hr
    have hm := List.mem_filter.mp hr
    simp only [Bool.and_eq_true, beq_iff_eq] at hm
    have hni := h r hm.1 hm.2.1 hm.2.2
    simpa using hni

theorem checkApproverPermission_eq_false_of_empty (db : DB) (g : Nat)
    (h : ∀ r ∈ db.roles, r.role_type = some "onboarding_approver" → r.guild_id ≠ g) :
    ∀ rids, checkApproverPermission db g rids = false := by
  intro rids
  have he : (db.roles.filter
      (fun r => r.guild_id == g && r.role_type == some "onboarding_approver")) = [] := by
    rw [List.filter_eq_nil_iff]
    intro r hr
    simp only [Bool.and_eq_true, beq_iff_eq, not_and]
    intro hg ht
    exact absurd hg (h r hr ht)
  unfold checkApproverPermission
  simp [he]

theorem checkApproverPermission_congr (db db' : DB) (g : Nat) (rids : List Nat)
    (h : db'.roles = db.roles) :
    checkApproverPermission db' g rids = checkApproverPermission db g rids := by
  unfold checkApproverPermission
  rw [h]

theorem approveClick_notApprover (db : DB) (ctx : ClickCtx) (u g : Nat)
    (hu : u ≠ 0) (hg : g ≠ 0)
    (hperm : checkApproverPermission db g ctx.actor.roleIds = false) :
    approveClick (some u) (some g) ctx db = ⟨.permissionDenied, db, [], none⟩ := by
  unfold approveClick resolveClickIds
  simp [truthyN_of_ne u hu, truthyN_of_ne g hg, hperm]

theorem denyClick_notApprover (db : DB) (ctx : ClickCtx) (u g : Nat)
    (hu : u ≠ 0) (hg : g ≠ 0)
    (hperm : checkApproverPermission db g ctx.actor.roleIds = false) :
    denyClick (some u) (some g) ctx db = ⟨.permissionDenied, db, [], none⟩ := by
  unfold denyClick resolveClickIds
  simp [truthyN_of_ne u hu, truthyN_of_ne g hg, hperm]

theorem approveClick_spec (db : DB) (ctx : ClickCtx) (u g : Nat) (mem : Member)
    (hu : u ≠ 0) (hg : g ≠ 0)
    (hperm : checkApproverPermission db g ctx.actor.roleIds = true)
    (hfind : db.members.find? (fun m => m.user_id == u && m.guild_id == g) = some mem) :
    approveClick (some u) (some g) ctx db = approveSuccess ctx db u g mem := by
  unfold approveClick resolveClickIds approveSuccess
  simp [truthyN_of_ne u hu, truthyN_of_ne g hg, hperm, hfind]

theorem denyClick_spec (db : DB) (ctx : ClickCtx) (u g : Nat) (mem : Member)
    (hu : u ≠ 0) (hg : g ≠ 0)
    (hperm : checkApproverPermission db g ctx.actor.roleIds = true)
    (hfind : db.members.find? (fun m => m.user_id == u && m.guild_id == g) = some mem) :
    denyClick (some u) (some g) ctx db = denySuccess ctx db u g := by
  unfold denyClick resolveClickIds denySuccess
  simp [truthyN_of_ne u hu, truthyN_of_ne g hg, hperm, hfind]

theorem find?_updateFirstMember (ms : List Member) (uid gid : Nat) (f : Member → Member)
    (hf : ∀ m, (f m).user_id = m.user_id ∧ (f m).guild_id = m.guild_id) :
    (updateFirstMember ms uid gid f).find? (fun m => m.user_id == uid && m.guild_id == gid)
      = (ms.find? (fun m => m.user_id == uid && m.guild_id == gid)).map f := by
  induction ms with
  | nil => rfl
  | cons m rest ih =>
    by_cases hp : (m.user_id == uid && m.guild_id == gid) = true
    · have hpf : ((f m).user_id == uid && (f m).guild_id == gid) = true := by
        rw [(hf m).1, (hf m).2]; exact hp
      simp [updateFirstMember, hp, List.find?_cons_of_pos, hpf]
    · have hp' := eq_false_of_ne_true hp
      have hpf : ¬ ((m.user_id == uid && m.guild_id == gid) = true) := hp
      simp [updateFirstMember, hp', List.find?_cons_of_neg, ih]

theorem approveSuccess_db (ctx : ClickCtx) (db : DB) (u g : Nat) (mem : Member) :
    (approveSuccess ctx db u g mem).db
      = { db with
          members := updateFirstMember db.members u g
            (fun m => { m with onboarding_status := 1,
                               onboarding_completed_at := some ctx.now }),
          audit := db.audit ++ [⟨g, ctx.actor.id, some ctx.actor.name,
            "onboarding_approved",
            [("approved_user_id", .jnum u), ("approved_by", .jstr ctx.actor.name)]⟩] } := by
  unfold approveSuccess
  cases hemb : ctx.message.embeds <;> simp [hemb]

theorem denySuccess_db (ctx : ClickCtx) (db : DB) (u g : Nat) :
    (denySuccess ctx db u g).db
      = { db with
          members := updateFirstMember db.members u g
            (fun m => { m with onboarding_status := -1 }),
          audit := db.audit ++ [⟨g, ctx.actor.id, some ctx.actor.name,
            "onboarding_denied",
            [("denied_user_id", .jnum u), ("denied_by", .jstr ctx.actor.name)]⟩] } := by
  unfold denySuccess
  cases hemb : ctx.message.embeds <;> simp [hemb]

theorem approveSuccess_sideEffects_ne_nil (ctx : ClickCtx) (db : DB) (u g : Nat)
    (mem : Member) (hcache : ctx.guildMemberIds.contains u = true) :
    (approveSuccess ctx db u g mem).sideEffects ≠ [] := by
  have hm : u ∈ ctx.guildMemberIds := by simpa using hcache
  unfold approveSuccess
  cases hemb : ctx.message.embeds <;> simp [hemb, hm]

theorem denySuccess_sideEffects_ne_nil (ctx : ClickCtx) (db : DB) (u g : Nat)
    (hcache : ctx.guildMemberIds.contains u = true) :
    (denySuccess ctx db u g).sideEffects ≠ [] := by
  have hm : u ∈ ctx.guildMemberIds := by simpa using hcache
  unfold denySuccess
  cases hemb : ctx.message.embeds <;> simp [hemb, hm]

theorem memberStatus_updateFirst (ms : List Member) (roles : List Role)
    (audit : List AuditLog) (guilds : List (Nat × GuildSettings))
    (u g : Nat) (f : Member → Member) (mem : Member)
    (hf : ∀ m, (f m).user_id = m.user_id ∧ (f m).guild_id = m.guild_id)
    (hfind : ms.find? (fun m => m.user_id == u && m.guild_id == g) = some mem) :
    memberStatus ⟨updateFirstMember ms u g f, roles, audit, guilds⟩ u g
      = some (f mem).onboarding_status := by
  unfold memberStatus
  simp [find?_updateFirstMember ms u g f hf, hfind]

theorem isApprovalRequest_embeds_ne_nil (botId : Nat) (m : Message)
    (h : isApprovalRequest botId m = true) : m.embeds ≠ [] := by
  intro hnil
  unfold isApprovalRequest at h
  rw [hnil] at h
  simp at h

theorem syncMessage_of_not_wouldEdit (f : Message → Bool) (db : DB) (gid : Nat)
    (m : Message) (h : wouldEdit db.members gid m = false) :
    syncMessage f db gid m = ⟨db, m, 0, if m.embeds.isEmpty then 1 else 0⟩ := by
  unfold wouldEdit at h
  unfold syncMessage
  cases hm : m.embeds with
  | nil => simp [hm]
  | cons e es =>
    simp only [hm] at h ⊢
    cases hex : extractUserIdFromEmbed e with
    | none => simp [hex]
    | some uid =>
      simp only [hex] at h ⊢
      cases hfind : db.members.find? (fun mm => mm.guild_id == gid && mm.user_id == uid) with
      | none => simp [hfind]
      | some mem =>
        simp only [hfind] at h ⊢
        by_cases hs1 : (mem.onboarding_status == 1) = true
        · rw [if_pos hs1] at h ⊢
          have hsa : showsApproved e.title = true := by
            cases hv : showsApproved e.title
            · rw [hv] at h; simp at h
            · rfl
          unfold updateApprovedMessage
          rw [if_pos hsa]
          simp
        · rw [if_neg hs1] at h ⊢
          by_cases hs2 : (mem.onboarding_status == -1) = true
          · rw [if_pos hs2] at h ⊢
            have hsd : showsDenied e.title = true := by
              cases hv : showsDenied e.title
              · rw [hv] at h; simp at h
              · rfl
            unfold updateDeniedMessage
            rw [if_pos hsd]
            simp
          · rw [if_neg hs2] at h ⊢
            simp

theorem syncMessage_wouldEdit_fail (f : Message → Bool) (db : DB) (gid : Nat)
    (m : Message) (h : wouldEdit db.members gid m = true) (hf : f m = true) :
    syncMessage f db gid m = ⟨db, m, 0, 1⟩ := by
  unfold wouldEdit at h
  unfold syncMessage
  cases hm : m.embeds with
  | nil => simp [hm] at h
  | cons e es =>
    simp only [hm] at h ⊢
    cases hex : extractUserIdFromEmbed e with
    | none => simp [hex] at h
    | some uid =>
      simp only [hex] at h ⊢
      cases hfind : db.members.find? (fun mm => mm.guild_id == gid && mm.user_id == uid) with
      | none => simp [hfind] at h
      | some mem =>
        simp only [hfind] at h ⊢
        by_cases hs1 : (mem.onboarding_status == 1) = true
        · rw [if_pos hs1] at h ⊢
          have hsa : showsApproved e.title = false := by
            cases hv : showsApproved e.title
            · rfl
            · rw [hv] at h; simp at h
          unfold updateApprovedMessage
          rw [if_neg (by rw [hsa]; exact Bool.false_ne_true)]
          rw [if_pos hf]
        · rw [if_neg hs1] at h ⊢
          by_cases hs2 : (mem.onboarding_status == -1) = true
          · rw [if_pos hs2] at h ⊢
            have hsd : showsDenied e.title = false := by
              cases hv : showsDenied e.title
              · rfl
              · rw [hv] at h; simp at h
            unfold updateDeniedMessage
            rw [if_neg (by rw [hsd]; exact Bool.false_ne_true)]
            rw [if_pos hf]
          · rw [if_neg hs2] at h
            simp at h

theorem syncMessage_wouldEdit_ok (f : Message → Bool) (db : DB) (gid : Nat)
    (m : Message) (h : wouldEdit db.members gid m = true) (hf : f m = false) :
    (syncMessage f db gid m).updated = 1 ∧ (syncMessage f db gid m).errors = 0 ∧
    (syncMessage f db gid m).db.members = db.members ∧
    (∀ botId, isApprovalRequest botId (syncMessage f db gid m).msg = false) := by
  have hA : pyIn "Onboarding Approval Request" "✅ Onboarding Request Approved" = false := by
    decide
  have hD : pyIn "Onboarding Approval Request" "❌ Onboarding Request Denied" = false := by
    decide
  unfold wouldEdit at h
  unfold syncMessage
  cases hm : m.embeds with
  | nil => simp [hm] at h
  | cons e es =>
    simp only [hm] at h ⊢
    cases hex : extractUserIdFromEmbed e with
    | none => simp [hex] at h
    | some uid =>
      simp only [hex] at h ⊢
      cases hfind : db.members.find? (fun mm => mm.guild_id == gid && mm.user_id == uid) with
      | none => simp [hfind] at h
      | some mem =>
        simp only [hfind] at h ⊢
        by_cases hs1 : (mem.onboarding_status == 1) = true
        · rw [if_pos hs1] at h ⊢
          have hsa : showsApproved e.title = false := by
            cases hv : showsApproved e.title
            · rfl
            · rw [hv] at h; simp at h
          unfold updateApprovedMessage
          rw [if_neg (by rw [hsa]; exact Bool.false_ne_true)]
          rw [if_neg (by rw [hf]; exact Bool.false_ne_true)]
          refine ⟨rfl, rfl, rfl, fun botId => ?_⟩
          unfold isApprovalRequest
          simp [hA]
        · rw [if_neg hs1] at h ⊢
          by_cases hs2 : (mem.onboarding_status == -1) = true
          · rw [if_pos hs2] at h ⊢
            have hsd : showsDenied e.title = false := by
              cases hv : showsDenied e.title
              · rfl
              · rw [hv] at h; simp at h
            unfold updateDeniedMessage
            rw [if_neg (by rw [hsd]; exact Bool.false_ne_true)]
            rw [if_neg (by rw [hf]; exact Bool.false_ne_true)]
            refine ⟨rfl, rfl, rfl, fun botId => ?_⟩
            unfold isApprovalRequest
            simp [hD]
          · rw [if_neg hs2] at h
            simp at h

theorem members_syncMessage (f : Message → Bool) (db : DB) (gid : Nat) (m : Message) :
    (syncMessage f db gid m).db.members = db.members := by
  by_cases hw : wouldEdit db.members gid m = true
  · by_cases hfm : f m = true
    · rw [syncMessage_wouldEdit_fail f db gid m hw hfm]
    · exact (syncMessage_wouldEdit_ok f db gid m hw (eq_false_of_ne_true hfm)).2.2.1
  · rw [syncMessage_of_not_wouldEdit f db gid m (eq_false_of_ne_true hw)]

theorem syncGuild_members (f : Message → Bool) (botId gid : Nat) :
    ∀ (msgs : List Message) (db : DB),
      (syncGuild f botId gid db msgs).db.members = db.members := by
  intro msgs
  induction msgs with
  | nil => intro db; rfl
  | cons m rest ih =>
    intro db
    by_cases hsel : isApprovalRequest botId m = true
    · simp only [syncGuild, if_pos hsel]
      rw [ih (syncMessage f db gid m).db, members_syncMessage]
    · simp only [syncGuild, if_neg hsel]
      exact ih db

theorem syncGuild_pass1_post (botId gid : Nat) :
    ∀ (msgs : List Message) (db : DB) (M : List Member), db.members = M →
      ∀ m' ∈ (syncGuild (fun _ => false) botId gid db msgs).msgs,
        isApprovalRequest botId m' = false ∨ wouldEdit M gid m' = false := by
  intro msgs
  induction msgs with
  | nil =>
    intro db M hM m' hm'
    simp only [syncGuild] at hm'
    exact absurd hm' (List.not_mem_nil m')
  | cons m rest ih =>
    intro db M hM m' hm'
    by_cases hsel : isApprovalRequest botId m = true
    · simp only [syncGuild, if_pos hsel] at hm'
      rcases List.mem_cons.mp hm' with h1 | h2
      · subst h1
        by_cases hw : wouldEdit db.members gid m = true
        · exact Or.inl ((syncMessage_wouldEdit_ok _ db gid m hw rfl).2.2.2 botId)
        · right
          rw [syncMessage_of_not_wouldEdit _ db gid m (eq_false_of_ne_true hw)]
          rw [← hM]
          exact eq_false_of_ne_true hw
      · exact ih (syncMessage (fun _ => false) db gid m).db M
          (by rw [members_syncMessage]; exact hM) m' h2
    · simp only [syncGuild, if_neg hsel] at hm'
      rcases List.mem_cons.mp hm' with h1 | h2
      · subst h1; exact Or.inl (eq_false_of_ne_true hsel)
      · exact ih db M hM m' h2

theorem syncGuild_pass2_zero (botId gid : Nat) :
    ∀ (msgs : List Message) (db : DB) (M : List Member), db.members = M →
      (∀ m ∈ msgs, isApprovalRequest botId m = false ∨ wouldEdit M gid m = false) →
      (syncGuild (fun _ => false) botId gid db msgs).stats.updated = 0 := by
  intro msgs
  induction msgs with
  | nil => intro db M hM hall; rfl
  | cons m rest ih =>
    intro db M hM hall
    have hrest : ∀ x ∈ rest, isApprovalRequest botId x = false ∨ wouldEdit M gid x = false :=
      fun x hx => hall x (List.mem_cons_of_mem m hx)
    by_cases hsel : isApprovalRequest botId m = true
    · have hw : wouldEdit M gid m = false := by
        rcases hall m (List.mem_cons_self m rest) with h | h
        · rw [hsel] at h; exact absurd h (by simp)
        · exact h
      have hw' : wouldEdit db.members gid m = false := by rw [hM]; exact hw
      simp only [syncGuild, if_pos hsel]
      rw [syncMessage_of_not_wouldEdit _ db gid m hw']
      simp only
      rw [ih db M hM hrest]
    · simp only [syncGuild, if_neg hsel]
      exact ih db M hM hrest

theorem syncGuild_counts (f : Message → Bool) (botId gid : Nat) :
    ∀ (msgs : List Message) (db : DB),
      (syncGuild f botId gid db msgs).stats.errors
        = (msgs.filter (fun m => isApprovalRequest botId m
            && wouldEdit db.members gid m && f m)).length ∧
      (syncGuild f botId gid db msgs).stats.updated
        = (msgs.filter (fun m => isApprovalRequest botId m
            && wouldEdit db.members gid m && !f m)).length := by
  intro msgs
  induction msgs with
  | nil => intro db; exact ⟨rfl, rfl⟩
  | cons m rest ih =>
    intro db
    by_cases hsel : isApprovalRequest botId m = true
    · by_cases hw : wouldEdit db.members gid m = true
      · by_cases hfm : f m = true
        · simp only [syncGuild, if_pos hsel]
          rw [syncMessage_wouldEdit_fail f db gid m hw hfm]
          simp only
          constructor
          · rw [List.filter_cons_of_pos (by simp [hsel, hw, hfm])]
            rw [List.length_cons, (ih db).1]
          · rw [List.filter_cons_of_neg (by simp [hsel, hw, hfm])]
            rw [(ih db).2]
            simp
        · have hfm' : f m = false := eq_false_of_ne_true hfm
          simp only [syncGuild, if_pos hsel]
          have hok := syncMessage_wouldEdit_ok f db gid m hw hfm'
          have hmem := members_syncMessage f db gid m
          constructor
          · rw [List.filter_cons_of_neg (by simp [hsel, hw, hfm'])]
            have := (ih (syncMessage f db gid m).db).1
            rw [hmem] at this
            rw [this, hok.2.1]
            simp
          · rw [List.filter_cons_of_pos (by simp [hsel, hw, hfm'])]
            have := (ih (syncMessage f db gid m).db).2
            rw [hmem] at this
            rw [List.length_cons, this, hok.1]
      · have hw' : wouldEdit db.members gid m = false := eq_false_of_ne_true hw
        have hne := isApprovalRequest_embeds_ne_nil botId m hsel
        have hie : m.embeds.isEmpty = false := by
          cases he : m.embeds
          · exact absurd he hne
          · rfl
        simp only [syncGuild, if_pos hsel]
        rw [syncMessage_of_not_wouldEdit f db gid m hw']
        simp only [hie]
        constructor
        · rw [List.filter_cons_of_neg (by simp [hw'])]
          rw [(ih db).1]
          simp
        · rw [List.filter_cons_of_neg (by simp [hw'])]
          rw [(ih db).2]
          simp
    · have hsel' := eq_false_of_ne_true hsel
      simp only [syncGuild, if_neg hsel]
      constructor
      · rw [List.filter_cons_of_neg (by simp [hsel'])]
        exact (ih db).1
      · rw [List.filter_cons_of_neg (by simp [hsel'])]
        exact (ih db).2

/-! ### Claim theorems -/

/-- C1, counterexample: the claim "if the member's stored status is not
pending, the decision operation is a no-op with zero side effects" is false
at a concrete input: with member 42 already approved, a second Approve click
by a different actor still applies the rename, role-grant and notification
side effects (and re-writes status and audit). -/
theorem C1_counterexample :
    memberStatus approvedDB 42 7 = some 1 ∧
    (approveClick (some 42) (some 7) ctxBob approvedDB).sideEffects =
      [.rename 42 "Grace", .grantRole 42 200,
       .dm 42 "✅ Your onboarding request has been approved! Welcome to TestGuild!"] ∧
    (approveClick (some 42) (some 7) ctxBob approvedDB).sideEffects ≠ [] := by
  decide

/-- C2, counterexample: the claim "the status write is atomic-conditional, so
of two racing deciders exactly one applies side effects and the other
observes already_decided" is false at a concrete input: two Approve attempts
on the same pending record, run one after the other, both complete the full
decision path and both apply side effects (there is no already_decided
observation anywhere in the handler). -/
theorem C2_counterexample :
    memberStatus pendingDB 42 7 = some 0 ∧
    (approveClick (some 42) (some 7) ctxAlice pendingDB).sideEffects ≠ [] ∧
    (approveClick (some 42) (some 7) ctxAlice pendingDB).outcome = .decided ∧
    (approveClick (some 42) (some 7) ctxBob
        (approveClick (some 42) (some 7) ctxAlice pendingDB).db).sideEffects ≠ [] ∧
    (approveClick (some 42) (some 7) ctxBob
        (approveClick (some 42) (some 7) ctxAlice pendingDB).db).outcome = .decided := by
  decide

/-- C6: the claim is right and the code is wrong. After alice's Approve click
wrote the `onboarding_approved` audit entry for member 42 (with the target id
recorded in `details`), the sweep's correction of the still-pending-rendered
message attributes the decision to "System (sync)" instead of alice: the
click handler stores `approved_user_id` as an int while the sweep compares it
against `str(member.user_id)`, so the lookup never matches. -/
theorem C6_attribution_bug :
    (∃ l ∈ (approveClick (some 42) (some 7) ctxAlice pendingDB).db.audit,
        l.action = "onboarding_approved" ∧
        l.discord_username = some "alice" ∧
        l.details.lookup "approved_user_id" = some (.jnum 42)) ∧
    approvedByValue
        (syncMessage (fun _ => false)
          (approveClick (some 42) (some 7) ctxAlice pendingDB).db 7 msgA).msg =
      some "System (sync)" ∧
    (syncMessage (fun _ => false)
        (approveClick (some 42) (some 7) ctxAlice pendingDB).db 7 msgA).updated = 1 := by
  decide

/-- C7, counterexample: the claim "both actuators fall back to the mention
pattern, and the click handler fails not-found only when neither source
yields an id" is false at a concrete input: on a message whose embed has no
"User ID" field but whose description contains the mention of user 42, the
sweep's extractor recovers 42, yet the Approve click handler returns the
not-found result without touching the store. -/
theorem C7_counterexample :
    extractUserIdFromEmbed mentionEmbed = some 42 ∧
    approveClick none none ctxAliceMention pendingDB =
      ⟨.couldNotDetermine, pendingDB, [], none⟩ := by
  decide

/-- C3: a click (Approve or Deny) by an actor holding none of the configured
approver roles is rejected with the permission error and performs no state
change at all: the database (members, audit, everything) is returned
unchanged, no side effect is attempted, and the request message is not
edited. -/
theorem C3_permission_gate (db : DB) (ctx : ClickCtx) (u g : Nat)
    (hu : u ≠ 0) (hg : g ≠ 0)
    (h : ∀ r ∈ db.roles, r.guild_id = g →
      r.role_type = some "onboarding_approver" → r.role_id ∉ ctx.actor.roleIds) :
    approveClick (some u) (some g) ctx db = ⟨.permissionDenied, db, [], none⟩ ∧
    denyClick (some u) (some g) ctx db = ⟨.permissionDenied, db, [], none⟩ := by
  have hp := checkApproverPermission_eq_false_of_not_held db g ctx.actor.roleIds h
  exact ⟨approveClick_notApprover db ctx u g hu hg hp,
         denyClick_notApprover db ctx u g hu hg hp⟩

/-- Witness for C3: eve (role 999 only) clicking on member 42's request. -/
theorem C3_witness :
    (42 ≠ 0 ∧ 7 ≠ 0 ∧
      (∀ r ∈ pendingDB.roles, r.guild_id = 7 →
        r.role_type = some "onboarding_approver" →
        r.role_id ∉ ctxEve.actor.roleIds)) ∧
    (approveClick (some 42) (some 7) ctxEve pendingDB
        = ⟨.permissionDenied, pendingDB, [], none⟩ ∧
      denyClick (some 42) (some 7) ctxEve pendingDB
        = ⟨.permissionDenied, pendingDB, [], none⟩) :=
  ⟨⟨by decide, by decide, by decide⟩,
   C3_permission_gate pendingDB ctxEve 42 7 (by decide) (by decide) (by decide)⟩

/-- C10: the permission check fails closed. When no role of type
`onboarding_approver` is recorded for the community, `check_approver_permission`
returns false for every actor, so every Approve or Deny click is rejected with
no state change. -/
theorem C10_fail_closed (db : DB) (g : Nat)
    (h : ∀ r ∈ db.roles, r.role_type = some "onboarding_approver" → r.guild_id ≠ g) :
    (∀ rids, checkApproverPermission db g rids = false) ∧
    (∀ (ctx : ClickCtx) (u : Nat), u ≠ 0 → g ≠ 0 →
      approveClick (some u) (some g) ctx db = ⟨.permissionDenied, db, [], none⟩ ∧
      denyClick (some u) (some g) ctx db = ⟨.permissionDenied, db, [], none⟩) := by
  have hall := checkApproverPermission_eq_false_of_empty db g h
  refine ⟨hall, fun ctx u hu hg => ?_⟩
  exact ⟨approveClick_notApprover db ctx u g hu hg (hall ctx.actor.roleIds),
         denyClick_notApprover db ctx u g hu hg (hall ctx.actor.roleIds)⟩

/-- Witness for C10: even approver alice is rejected in the guild with an
empty approver-role set. -/
theorem C10_witness :
    (∀ r ∈ noApproverDB.roles,
      r.role_type = some "onboarding_approver" → r.guild_id ≠ 7) ∧
    checkApproverPermission noApproverDB 7 actorAlice.roleIds = false ∧
    approveClick (some 42) (some 7) ctxAlice noApproverDB
      = ⟨.permissionDenied, noApproverDB, [], none⟩ :=
  ⟨by decide,
   (C10_fail_closed noApproverDB 7 (by decide)).1 actorAlice.roleIds,
   ((C10_fail_closed noApproverDB 7 (by decide)).2 ctxAlice 42
      (by decide) (by decide)).1⟩

/-- C1, amended: the click handlers do not check the stored status at all.
Once id resolution and the permission check succeed and the member row
exists, Approve unconditionally writes status approved (1) and applies its
side effects, and Deny unconditionally writes status denied (-1) and applies
its notification, even when the stored status is already terminal (here:
already decided, status ≠ 0); a fresh audit entry is appended each time. The
only repeat-click protection is the disabling of the buttons in the edited
message. -/
theorem C1_decision_unconditional (db : DB) (ctx : ClickCtx) (u g : Nat) (mem : Member)
    (hu : u ≠ 0) (hg : g ≠ 0)
    (hperm : checkApproverPermission db g ctx.actor.roleIds = true)
    (hfind : db.members.find? (fun m => m.user_id == u && m.guild_id == g) = some mem)
    (_hdecided : mem.onboarding_status ≠ 0)
    (hcache : ctx.guildMemberIds.contains u = true) :
    memberStatus (approveClick (some u) (some g) ctx db).db u g = some 1 ∧
    (approveClick (some u) (some g) ctx db).sideEffects ≠ [] ∧
    (approveClick (some u) (some g) ctx db).db.audit
      = db.audit ++ [⟨g, ctx.actor.id, some ctx.actor.name, "onboarding_approved",
          [("approved_user_id", .jnum u), ("approved_by", .jstr ctx.actor.name)]⟩] ∧
    memberStatus (denyClick (some u) (some g) ctx db).db u g = some (-1) ∧
    (denyClick (some u) (some g) ctx db).sideEffects ≠ [] := by
  rw [approveClick_spec db ctx u g mem hu hg hperm hfind,
      denyClick_spec db ctx u g mem hu hg hperm hfind]
  refine ⟨?_, approveSuccess_sideEffects_ne_nil ctx db u g mem hcache, ?_,
          ?_, denySuccess_sideEffects_ne_nil ctx db u g hcache⟩
  · rw [approveSuccess_db]
    exact memberStatus_updateFirst db.members db.roles _ db.guilds u g _ mem
      (fun m => ⟨rfl, rfl⟩) hfind
  · rw [approveSuccess_db]
  · rw [denySuccess_db]
    exact memberStatus_updateFirst db.members db.roles _ db.guilds u g _ mem
      (fun m => ⟨rfl, rfl⟩) hfind

/-- Witness for C1: bob re-approving the already-approved member 42. -/
theorem C1_witness :
    (42 ≠ 0 ∧ 7 ≠ 0 ∧
      checkApproverPermission approvedDB 7 ctxBob.actor.roleIds = true ∧
      approvedDB.members.find?
        (fun m => m.user_id == 42 && m.guild_id == 7) = some ⟨42, 7, "grace", some "Grace", 1, some 5⟩ ∧
      (⟨42, 7, "grace", some "Grace", 1, some 5⟩ : Member).onboarding_status ≠ 0 ∧
      ctxBob.guildMemberIds.contains 42 = true) ∧
    (memberStatus (approveClick (some 42) (some 7) ctxBob approvedDB).db 42 7 = some 1 ∧
      (approveClick (some 42) (some 7) ctxBob approvedDB).sideEffects ≠ [] ∧
      (approveClick (some 42) (some 7) ctxBob approvedDB).db.audit
        = approvedDB.audit ++ [⟨7, ctxBob.actor.id, some ctxBob.actor.name,
            "onboarding_approved",
            [("approved_user_id", .jnum 42), ("approved_by", .jstr ctxBob.actor.name)]⟩] ∧
      memberStatus (denyClick (some 42) (some 7) ctxBob approvedDB).db 42 7 = some (-1) ∧
      (denyClick (some 42) (some 7) ctxBob approvedDB).sideEffects ≠ []) :=
  ⟨⟨by decide, by decide, by decide, by decide, by decide, by decide⟩,
   C1_decision_unconditional approvedDB ctxBob 42 7 ⟨42, 7, "grace", some "Grace", 1, some 5⟩
     (by decide) (by decide) (by decide) (by decide) (by decide) (by decide)⟩

/-- C2, amended: the status write is a plain unconditional overwrite, not an
atomic transition-if-still-pending. When two Approve deciders act on the same
pending record one after the other (the serialization the claim's conditional
write would enforce), both run the full decision path and both apply side
effects; neither observes an already-decided result. The stored status does
converge to approved, but "exactly one decider applies side effects" fails. -/
theorem C2_race_both_apply (db : DB) (ctx1 ctx2 : ClickCtx) (u g : Nat) (mem : Member)
    (hu : u ≠ 0) (hg : g ≠ 0)
    (hperm1 : checkApproverPermission db g ctx1.actor.roleIds = true)
    (hperm2 : checkApproverPermission db g ctx2.actor.roleIds = true)
    (hfind : db.members.find? (fun m => m.user_id == u && m.guild_id == g) = some mem)
    (_hpending : mem.onboarding_status = 0)
    (hcache1 : ctx1.guildMemberIds.contains u = true)
    (hcache2 : ctx2.guildMemberIds.contains u = true) :
    memberStatus (approveClick (some u) (some g) ctx1 db).db u g = some 1 ∧
    (approveClick (some u) (some g) ctx1 db).sideEffects ≠ [] ∧
    (approveClick (some u) (some g) ctx2
        (approveClick (some u) (some g) ctx1 db).db).sideEffects ≠ [] ∧
    memberStatus (approveClick (some u) (some g) ctx2
        (approveClick (some u) (some g) ctx1 db).db).db u g = some 1 := by
  rw [approveClick_spec db ctx1 u g mem hu hg hperm1 hfind]
  have hdb1 := approveSuccess_db ctx1 db u g mem
  have hfind1 : (approveSuccess ctx1 db u g mem).db.members.find?
      (fun m => m.user_id == u && m.guild_id == g)
        = some { mem with onboarding_status := 1,
                          onboarding_completed_at := some ctx1.now } := by
    rw [hdb1]
    dsimp only
    rw [find?_updateFirstMember db.members u g
        (fun m => { m with onboarding_status := 1,
                           onboarding_completed_at := some ctx1.now })
        (fun m => ⟨rfl, rfl⟩), hfind]
    rfl
  have hperm2' : checkApproverPermission (approveSuccess ctx1 db u g mem).db g
      ctx2.actor.roleIds = true := by
    rw [checkApproverPermission_congr db _ g ctx2.actor.roleIds (by rw [hdb1])]
    exact hperm2
  rw [approveClick_spec _ ctx2 u g _ hu hg hperm2' hfind1]
  refine ⟨?_, approveSuccess_sideEffects_ne_nil ctx1 db u g mem hcache1,
          approveSuccess_sideEffects_ne_nil ctx2 _ u g _ hcache2, ?_⟩
  · rw [hdb1]
    exact memberStatus_updateFirst db.members db.roles _ db.guilds u g _ mem
      (fun m => ⟨rfl, rfl⟩) hfind
  · rw [approveSuccess_db ctx2, hdb1]
    dsimp only
    exact memberStatus_updateFirst _ _ _ _ u g _ _
      (fun m => ⟨rfl, rfl⟩)
      (by rw [find?_updateFirstMember db.members u g
                (fun m => { m with onboarding_status := 1,
                                   onboarding_completed_at := some ctx1.now })
                (fun m => ⟨rfl, rfl⟩), hfind]
          rfl)

theorem strTake_length_le (s : String) (n : Nat) : (strTake s n).length ≤ n := by
  have h : (strTake s n).length = (s.data.take n).length := rfl
  rw [h, List.length_take]
  exact Nat.min_le_left _ _

/-- C7, amended: only the sweep's extractor prefers the structured "User ID"
field and falls back to the mention pattern in the description; the click
handlers read only the structured field (or the ids already carried by the
view) and return the not-found result whenever that field is absent, even
when a mention would yield an id. -/
theorem C7_extraction_amended :
    (∀ (e : Embed) (n : Nat),
      e.fields.findSome?
          (fun f => if f.name == "User ID" then parseNat f.value else none) = some n →
      extractUserIdFromEmbed e = some n) ∧
    (∀ (e : Embed) (d : String),
      e.fields.findSome?
          (fun f => if f.name == "User ID" then parseNat f.value else none) = none →
      e.description = some d → d ≠ "" →
      extractUserIdFromEmbed e = searchMention d.data) ∧
    (∀ (ctx : ClickCtx) (db : DB) (e : Embed) (es : List Embed),
      ctx.message.embeds = e :: es →
      e.fields.find? (fun f => f.name == "User ID") = none →
      approveClick none none ctx db = ⟨.couldNotDetermine, db, [], none⟩ ∧
      denyClick none none ctx db = ⟨.couldNotDetermine, db, [], none⟩) := by
  refine ⟨?_, ?_, ?_⟩
  · intro e n h
    unfold extractUserIdFromEmbed
    rw [h]
  · intro e d h hd hne
    unfold extractUserIdFromEmbed
    rw [h, hd]
    simp [hne]
  · intro ctx db e es hemb hfield
    constructor
    · unfold approveClick resolveClickIds
      simp [hemb, hfield, truthyN]
    · unfold denyClick resolveClickIds
      simp [hemb, hfield, truthyN]

/-- Witness for C7's amended claim: the message whose embed carries only the
mention of user 42. -/
theorem C7_witness :
    ((mentionEmbed.fields.findSome?
        (fun f => if f.name == "User ID" then parseNat f.value else none) = none ∧
      mentionEmbed.description
        = some "**<@42>** (grace) has submitted an onboarding request." ∧
      "**<@42>** (grace) has submitted an onboarding request." ≠ "" ∧
      ctxAliceMention.message.embeds = mentionEmbed :: [] ∧
      mentionEmbed.fields.find? (fun f => f.name == "User ID") = none) ∧
    extractUserIdFromEmbed mentionEmbed
      = searchMention "**<@42>** (grace) has submitted an onboarding request.".data) ∧
    denyClick none none ctxAliceMention pendingDB
      = ⟨.couldNotDetermine, pendingDB, [], none⟩ :=
  ⟨⟨⟨by decide, by decide, by decide, by decide, by decide⟩,
    C7_extraction_amended.2.1 mentionEmbed
      "**<@42>** (grace) has submitted an onboarding request."
      (by decide) (by decide) (by decide)⟩,
   (C7_extraction_amended.2.2 ctxAliceMention pendingDB mentionEmbed []
      (by decide) (by decide)).2⟩

/-- C8: nickname computation on submission. With a configured template every
placeholder is substituted and the result truncated to 32 characters (the
Ada/Lovelace example yields "Ada Lovelace"); with no template and first/last
name not both present, the nickname falls back to the first available
submitted field value truncated to 32 characters (the Grace example yields
"Grace"). -/
theorem C8_nickname :
    (∀ fb, generateNickname (some "\x7bfirst_name\x7d \x7blast_name\x7d")
        [("first_name", "Ada"), ("last_name", "Lovelace")] fb = "Ada Lovelace") ∧
    (∀ (t : String) (fields : List (String × String)) (fb : String), t ≠ "" →
      (generateNickname (some t) fields fb).length ≤ 32) ∧
    (∀ fb, generateNickname none [("first_name", "Grace")] fb = "Grace") ∧
    (∀ (fields : List (String × String)) (fb v n : String)
        (tl : List (String × String)),
      fields = (n, v) :: tl →
      ¬(lookupStr fields "first_name" ≠ "" ∧ lookupStr fields "last_name" ≠ "") →
      generateNickname none fields fb = strTake v 32) := by
  refine ⟨fun fb => rfl, ?_, fun fb => rfl, ?_⟩
  · intro t fields fb ht
    have hb : pyTruthyStr (some t) = true := by simp [pyTruthyStr, ht]
    unfold generateNickname
    rw [if_pos hb]
    exact strTake_length_le _ 32
  · intro fields fb v n tl hfields hnot
    subst hfields
    have hcond : (lookupStr ((n, v) :: tl) "first_name" != ""
        && lookupStr ((n, v) :: tl) "last_name" != "") = false := by
      rcases not_and_or.mp hnot with h | h
      · have : lookupStr ((n, v) :: tl) "first_name" = "" := not_ne_iff.mp h
        simp [this]
      · have : lookupStr ((n, v) :: tl) "last_name" = "" := not_ne_iff.mp h
        simp [this]
    unfold generateNickname
    rw [if_neg (by simp [pyTruthyStr])]
    simp only [hcond, Bool.false_eq_true, if_false]

/-- Witness for C8: the truncation bound at template "X" and the fallback at
fields
    [("first_name", "Grace")]. -/
theorem C8_witness :
    ("X" ≠ "" ∧ (generateNickname (some "X") [] "user").length ≤ 32) ∧
    (([("first_name", "Grace")] : List (String × String))
        = ("first_name", "Grace") :: [] ∧
      ¬(lookupStr [("first_name", "Grace")] "first_name" ≠ "" ∧
        lookupStr [("first_name", "Grace")] "last_name" ≠ "") ∧
      generateNickname none [("first_name", "Grace")] "user" = strTake "Grace" 32) :=
  ⟨⟨by decide, C8_nickname.2.1 "X" [] "user" (by decide)⟩,
   ⟨by decide, by decide,
    C8_nickname.2.2.2 [("first_name", "Grace")] "user" "Grace" "first_name" []
      (by decide) (by decide)⟩⟩

/-- C4: for a sweep-examined message whose member id is extractable and whose
member record exists, the message is edited (counted as one update) iff the
stored status is terminal (1 or -1) and the rendered title does not yet show
that terminal state; a pending member's message is left untouched (no store
change, no edit); a message rendering pending while the store says approved
is edited to the approved title and counted as exactly one update. -/
theorem C4_sync_message_edit_iff (db : DB) (gid : Nat) (m : Message) (e : Embed)
    (es : List Embed) (uid : Nat) (mem : Member)
    (hm : m.embeds = e :: es)
    (hex : extractUserIdFromEmbed e = some uid)
    (hfind : db.members.find? (fun mm => mm.guild_id == gid && mm.user_id == uid)
      = some mem) :
    ((syncMessage (fun _ => false) db gid m).updated = 1 ↔
      ((mem.onboarding_status = 1 ∧ showsApproved e.title = false) ∨
       (mem.onboarding_status = -1 ∧ showsDenied e.title = false))) ∧
    ((syncMessage (fun _ => false) db gid m).updated = 0 →
      (syncMessage (fun _ => false) db gid m).msg = m ∧
      (syncMessage (fun _ => false) db gid m).db = db) ∧
    (mem.onboarding_status = 0 →
      syncMessage (fun _ => false) db gid m = ⟨db, m, 0, 0⟩) ∧
    ((mem.onboarding_status = 1 ∧ showsApproved e.title = false) →
      (syncMessage (fun _ => false) db gid m).updated = 1 ∧
      (syncMessage (fun _ => false) db gid m).msg ≠ m ∧
      (syncMessage (fun _ => false) db gid m).msg.embeds.map (·.title)
        = [some "✅ Onboarding Request Approved"]) := by
  have hstep : syncMessage (fun _ => false) db gid m
      = (if mem.onboarding_status == 1 then
          updateApprovedMessage (fun _ => false) db m e mem
        else if mem.onboarding_status == -1 then
          updateDeniedMessage (fun _ => false) db m e mem
        else ⟨db, m, 0, 0⟩) := by
    unfold syncMessage
    simp only [hm, hex, hfind]
  by_cases h1 : mem.onboarding_status = 1
  · have hb1 : (mem.onboarding_status == 1) = true := by simp [h1]
    simp only [hb1] at hstep
    simp only [if_true] at hstep
    by_cases hsa : showsApproved e.title = true
    · have hres : syncMessage (fun _ => false) db gid m = ⟨db, m, 0, 0⟩ := by
        rw [hstep]; unfold updateApprovedMessage; rw [if_pos hsa]
      refine ⟨?_, ?_, ?_, ?_⟩
      · rw [hres]
        simp [h1, hsa]
      · intro _; rw [hres]; exact ⟨rfl, rfl⟩
      · intro h0; rw [h1] at h0; exact absurd h0 (by decide)
      · rintro ⟨-, hfalse⟩
        rw [hsa] at hfalse
        exact absurd hfalse (by decide)
    · have hsa' : showsApproved e.title = false := eq_false_of_ne_true hsa
      have hupd : (syncMessage (fun _ => false) db gid m).updated = 1 := by
        rw [hstep]; unfold updateApprovedMessage
        rw [if_neg (by rw [hsa']; exact Bool.false_ne_true)]
        rfl
      have hmap : (syncMessage (fun _ => false) db gid m).msg.embeds.map (·.title)
          = [some "✅ Onboarding Request Approved"] := by
        rw [hstep]; unfold updateApprovedMessage
        rw [if_neg (by rw [hsa']; exact Bool.false_ne_true)]
        rfl
      have hmsgne : (syncMessage (fun _ => false) db gid m).msg ≠ m := by
        intro hEq
        have h' := congrArg (fun mm : Message => mm.embeds.map (·.title)) hEq
        dsimp only at h'
        rw [hmap, hm] at h'
        simp only [List.map_cons, List.cons.injEq] at h'
        have hT : showsApproved (some "✅ Onboarding Request Approved") = true := by
          decide
        rw [← h'.1, hT] at hsa'
        exact absurd hsa' (by decide)
      refine ⟨?_, ?_, ?_, fun _ => ⟨hupd, hmsgne, hmap⟩⟩
      · rw [hupd]
        simp [h1, hsa']
      · intro h0; rw [hupd] at h0; exact absurd h0 (by decide)
      · intro h0; rw [h1] at h0; exact absurd h0 (by decide)
  · have hb1 : (mem.onboarding_status == 1) = false := by
      cases hv : mem.onboarding_status == 1
      · rfl
      · exact absurd (by simpa using hv) h1
    rw [hb1] at hstep
    simp only [Bool.false_eq_true, if_false] at hstep
    by_cases h2 : mem.onboarding_status = -1
    · have hb2 : (mem.onboarding_status == -1) = true := by simp [h2]
      simp only [hb2] at hstep
      simp only [if_true] at hstep
      by_cases hsd : showsDenied e.title = true
      · have hres : syncMessage (fun _ => false) db gid m = ⟨db, m, 0, 0⟩ := by
          rw [hstep]; unfold updateDeniedMessage; rw [if_pos hsd]
        refine ⟨?_, ?_, ?_, ?_⟩
        · rw [hres]
          simp [h1, h2, hsd]
        · intro _; rw [hres]; exact ⟨rfl, rfl⟩
        · intro h0; rw [h2] at h0; exact absurd h0 (by decide)
        · rintro ⟨ha, -⟩; exact absurd ha h1
      · have hsd' : showsDenied e.title = false := eq_false_of_ne_true hsd
        have hupd : (syncMessage (fun _ => false) db gid m).updated = 1 := by
          rw [hstep]; unfold updateDeniedMessage
          rw [if_neg (by rw [hsd']; exact Bool.false_ne_true)]
          rfl
        refine ⟨?_, ?_, ?_, ?_⟩
        · rw [hupd]
          simp [h1, h2, hsd']
        · intro h0; rw [hupd] at h0; exact absurd h0 (by decide)
        · intro h0; rw [h2] at h0; exact absurd h0 (by decide)
        · rintro ⟨ha, -⟩; exact absurd ha h1
    · have hb2 : (mem.onboarding_status == -1) = false := by
        cases hv : mem.onboarding_status == -1
        · rfl
        · exact absurd (by simpa using hv) h2
      rw [hb2] at hstep
      simp only [Bool.false_eq_true, if_false] at hstep
      refine ⟨?_, ?_, fun _ => hstep, ?_⟩
      · rw [hstep]
        simp [h1, h2]
      · intro _; rw [hstep]; exact ⟨rfl, rfl⟩
      · rintro ⟨ha, -⟩; exact absurd ha h1

/-- Witness for C4: the pending-rendered message of member 42 while the store
already says approved; one update with the approved title. -/
theorem C4_witness :
    (msgA.embeds = sampleEmbed :: [] ∧
      extractUserIdFromEmbed sampleEmbed = some 42 ∧
      approvedDB.members.find? (fun mm => mm.guild_id == 7 && mm.user_id == 42)
        = some ⟨42, 7, "grace", some "Grace", 1, some 5⟩) ∧
    (((syncMessage (fun _ => false) approvedDB 7 msgA).updated = 1 ↔
        (((⟨42, 7, "grace", some "Grace", 1, some 5⟩ : Member).onboarding_status = 1 ∧
          showsApproved sampleEmbed.title = false) ∨
         ((⟨42, 7, "grace", some "Grace", 1, some 5⟩ : Member).onboarding_status = -1 ∧
          showsDenied sampleEmbed.title = false))) ∧
      ((syncMessage (fun _ => false) approvedDB 7 msgA).updated = 0 →
        (syncMessage (fun _ => false) approvedDB 7 msgA).msg = msgA ∧
        (syncMessage (fun _ => false) approvedDB 7 msgA).db = approvedDB) ∧
      ((⟨42, 7, "grace", some "Grace", 1, some 5⟩ : Member).onboarding_status = 0 →
        syncMessage (fun _ => false) approvedDB 7 msgA = ⟨approvedDB, msgA, 0, 0⟩) ∧
      (((⟨42, 7, "grace", some "Grace", 1, some 5⟩ : Member).onboarding_status = 1 ∧
          showsApproved sampleEmbed.title = false) →
        (syncMessage (fun _ => false) approvedDB 7 msgA).updated = 1 ∧
        (syncMessage (fun _ => false) approvedDB 7 msgA).msg ≠ msgA ∧
        (syncMessage (fun _ => false) approvedDB 7 msgA).msg.embeds.map (·.title)
          = [some "✅ Onboarding Request Approved"])) :=
  ⟨⟨by decide, by decide, by decide⟩,
   C4_sync_message_edit_iff approvedDB 7 msgA sampleEmbed [] 42
     ⟨42, 7, "grace", some "Grace", 1, some 5⟩ (by decide) (by decide) (by decide)⟩

/-- C5: the sweep is idempotent. Running the per-guild sweep twice in a row
over any message list and any database, with no intervening change (and no
edit failures), performs zero message edits on the second pass: messages the
first pass corrected now carry the terminal title (and no longer even match
the approval-request filter), and messages it skipped are skipped again. -/
theorem C5_sweep_idempotent (botId gid : Nat) (db : DB) (msgs : List Message) :
    (syncGuild (fun _ => false) botId gid
        (syncGuild (fun _ => false) botId gid db msgs).db
        (syncGuild (fun _ => false) botId gid db msgs).msgs).stats.updated = 0 := by
  apply syncGuild_pass2_zero botId gid _ _ db.members
  · rw [syncGuild_members]
  · exact fun m' hm' => syncGuild_pass1_post botId gid msgs db db.members rfl m' hm'

/-- C9: sweep error isolation. A failed history read aborts the pass for that
guild with no message edit, no store change and no statistics (the exception
is swallowed, so the periodic loop simply runs again next interval); an error
while editing an individual message is counted in `errors` and does not stop
the remaining messages: over any message list, `errors` counts exactly the
stale messages whose edit fails and `updated` counts exactly the stale
messages whose edit succeeds. -/
theorem C9_error_isolation :
    (∀ (f : Message → Bool) (botId gid : Nat) (db : DB),
      syncGuildRun (.error ()) f botId gid db = ⟨db, [], ⟨0, 0, 0⟩⟩) ∧
    (∀ (f : Message → Bool) (botId gid : Nat) (db : DB) (msgs : List Message),
      (syncGuild f botId gid db msgs).stats.errors
        = (msgs.filter (fun m => isApprovalRequest botId m
            && wouldEdit db.members gid m && f m)).length ∧
      (syncGuild f botId gid db msgs).stats.updated
        = (msgs.filter (fun m => isApprovalRequest botId m
            && wouldEdit db.members gid m && !f m)).length) :=
  ⟨fun _ _ _ _ => rfl,
   fun f botId gid db msgs => syncGuild_counts f botId gid msgs db⟩

/-- Witness for C2: alice then bob approving pending member 42. -/
theorem C2_witness :
    (42 ≠ 0 ∧ 7 ≠ 0 ∧
      checkApproverPermission pendingDB 7 ctxAlice.actor.roleIds = true ∧
      checkApproverPermission pendingDB 7 ctxBob.actor.roleIds = true ∧
      pendingDB.members.find? (fun m => m.user_id == 42 && m.guild_id == 7)
        = some ⟨42, 7, "grace", some "Grace", 0, none⟩ ∧
      (⟨42, 7, "grace", some "Grace", 0, none⟩ : Member).onboarding_status = 0 ∧
      ctxAlice.guildMemberIds.contains 42 = true ∧
      ctxBob.guildMemberIds.contains 42 = true) ∧
    (memberStatus (approveClick (some 42) (some 7) ctxAlice pendingDB).db 42 7 = some 1 ∧
      (approveClick (some 42) (some 7) ctxAlice pendingDB).sideEffects ≠ [] ∧
      (approveClick (some 42) (some 7) ctxBob
          (approveClick (some 42) (some 7) ctxAlice pendingDB).db).sideEffects ≠ [] ∧
      memberStatus (approveClick (some 42) (some 7) ctxBob
          (approveClick (some 42) (some 7) ctxAlice pendingDB).db).db 42 7 = some 1) :=
  ⟨⟨by decide, by decide, by decide, by decide, by decide, by decide, by decide, by decide⟩,
   C2_race_both_apply pendingDB ctxAlice ctxBob 42 7 ⟨42, 7, "grace", some "Grace", 0, none⟩
     (by decide) (by decide) (by decide) (by decide) (by decide) (by decide)
     (by decide) (by decide)⟩

end Vela
